import Mathlib

/-!
Verification of the aiplatform event-sourced runtime engine.

A shallow embedding of the Go source of the engine:
- the phase model (`internals/runtime/phase.go`),
- the assertion-checked event formatter (`internals/runtime/formatter.go`),
- the workspace-root validation (`pkg/validate` and
  `normalizeWorkspaceRoot` in `internals/runtime/engine.go`),
- the per-run event log (`internals/runtime/log.go`): open / scan-to-resume /
  append / close, with the single-writer loop collapsed to sequential calls,
- the `handleStartRun` command handler of the engine (`internals/runtime/engine.go`).

Go panics (failed `assert.*` calls) are modelled as distinguished error
outcomes; Go `error` returns are modelled as `Option String` (`none` = nil
error) or `Except`.  Filesystem reads (`filepath.EvalSymlinks`) are passed in
as an explicit resolver function.  The `bufio` flush is modelled as always
succeeding; JSON encode faithfully fails exactly where `json.Marshal` does
(a `Phase` field whose value is not one of the four valid phases).
-/

namespace AIPlatform

/-! ## Phase model (`internals/runtime/phase.go`) -/

/-- Go `type Phase int`. -/
abbrev Phase := Int

def PhaseDataIngestion : Phase := 1
def PhaseSignalGeneration : Phase := 2
def PhaseRiskValidation : Phase := 3
def PhaseOrderExecution : Phase := 4

def MinPhase : Phase := PhaseDataIngestion
def MaxPhase : Phase := PhaseOrderExecution

/-- Go `func (p Phase) IsValid() bool`. -/
def phaseIsValid (p : Phase) : Bool :=
  MinPhase ≤ p && p ≤ MaxPhase

/-- Go `func (p Phase) String() string`; `none` models the panic on an
invalid phase. -/
def phaseString (p : Phase) : Option String :=
  if p = PhaseDataIngestion then some "data_ingestion"
  else if p = PhaseSignalGeneration then some "signal_generation"
  else if p = PhaseRiskValidation then some "risk_validation"
  else if p = PhaseOrderExecution then some "order_execution"
  else none

/-- Go `func ParsePhase(s string) Phase`; `none` models the panic on an
unknown string. -/
def ParsePhase (s : String) : Option Phase :=
  if s = "data_ingestion" then some PhaseDataIngestion
  else if s = "signal_generation" then some PhaseSignalGeneration
  else if s = "risk_validation" then some PhaseRiskValidation
  else if s = "order_execution" then some PhaseOrderExecution
  else none

/-- Go `func IsValidTransition(from, to Phase) bool`.
`none` models the `assert.Is_true(….IsValid(), …)` panic on an invalid
argument; the body mirrors the three branches of the source. -/
def IsValidTransition (f t : Phase) : Option Bool :=
  if !(phaseIsValid f) then none
  else if !(phaseIsValid t) then none
  else if f = t then some true
  else if t > f then some (t = f + 1)
  else some false

/-- Go `func (p Phase) MarshalJSON() ([]byte, error)`: errors on an invalid
phase, otherwise emits the string form. -/
def marshalPhase (p : Phase) : Except String String :=
  if !(phaseIsValid p) then .error "cannot marshal invalid phase"
  else match phaseString p with
    | some s => .ok s
    | none => .error "cannot marshal invalid phase"

/-! ## Validation (`pkg/validate/validate.go`) -/

/-- The whitespace set of Go `unicode.IsSpace` restricted to Latin-1, which is
what `strings.TrimSpace` strips for the ASCII/Latin-1 paths at issue here. -/
def goIsSpace (c : Char) : Bool :=
  c = ' ' || c = '\t' || c = '\n' || c = Char.ofNat 11 || c = Char.ofNat 12 ||
  c = '\r' || c = Char.ofNat 0x85 || c = Char.ofNat 0xA0

/-- Go `strings.TrimSpace`. -/
def trimSpace (s : String) : String :=
  String.mk (((s.toList.dropWhile goIsSpace).reverse.dropWhile goIsSpace).reverse)

/-- Go `filepath.IsAbs` on Unix: the path starts with a slash. -/
def isAbs (p : String) : Bool :=
  match p.toList with
  | [] => false
  | c :: _ => c = '/'

/-- Go `validate.not_empty`: error (`some` message) iff the string is blank. -/
def not_empty (s field : String) : Option String :=
  if trimSpace s = "" then some (field ++ " must not be empty") else none

/-- Go `validate.absolute_path`: error iff the path is not absolute. -/
def absolute_path (path : String) : Option String :=
  if !(isAbs path) then some ("path must be absolute: " ++ path) else none

/-- Go `validate.Workspace_root`: its body checks only `not_empty` and
`absolute_path` (the `exists` check announced by its doc comment is absent). -/
def Workspace_root (path : String) : Option String :=
  match not_empty path "workspace_root" with
  | some e => some e
  | none => absolute_path path

/-! ## Path cleaning and workspace normalization
(`filepath.Clean` as used by `normalizeWorkspaceRoot` in `engine.go`) -/

/-- Split a character list at every slash (the semantics of Go
`strings.Split(p, "/")`, written recursively so it evaluates in the
kernel). -/
def splitComps : List Char → List Char → List String
  | [], cur => [String.mk cur.reverse]
  | c :: rest, cur =>
    if c = '/' then String.mk cur.reverse :: splitComps rest []
    else splitComps rest (c :: cur)

/-- Go `strings.Split(p, "/")`. -/
def splitOnSlash (p : String) : List String :=
  splitComps p.toList []

/-- The component-stack loop of Go `path.Clean` (Unix `filepath.Clean`):
drop empty and `.` components, pop on `..` where possible, keep leading
`..` components only for relative paths. -/
def cleanComponents (rooted : Bool) : List String → List String → List String
  | [], acc => acc.reverse
  | c :: rest, acc =>
    if c = "" || c = "." then cleanComponents rooted rest acc
    else if c = ".." then
      match acc with
      | top :: acc' =>
        if top = ".." then cleanComponents rooted rest (c :: top :: acc')
        else cleanComponents rooted rest acc'
      | [] =>
        if rooted then cleanComponents rooted rest []
        else cleanComponents rooted rest [".."]
    else cleanComponents rooted rest (c :: acc)

/-- Go `filepath.Clean` on Unix. -/
def pathClean (p : String) : String :=
  if p = "" then "."
  else
    let rooted := isAbs p
    let comps := cleanComponents rooted (splitOnSlash p) []
    let out := String.intercalate "/" comps
    if rooted then "/" ++ out
    else if out = "" then "." else out

/-- Go `normalizeWorkspaceRoot` (`engine.go:127`): clean, require absolute,
resolve symlinks (the filesystem is the explicit `evalSymlinks` argument;
its `.error` models the `filepath.EvalSymlinks` failure on a path that does
not exist), and require the resolved path to be absolute. -/
def normalizeWorkspaceRoot (evalSymlinks : String → Except String String)
    (path : String) : Except String String :=
  let cleaned := pathClean path
  if !(isAbs cleaned) then
    .error ("workspace_root must be absolute path: " ++ path)
  else
    match evalSymlinks cleaned with
    | .error _ => .error "workspace_root contains broken symlink or does not exist"
    | .ok realPath =>
      if !(isAbs realPath) then
        .error ("workspace_root resolved to non-absolute path: " ++ realPath)
      else .ok realPath

/-! ## Event catalog (`internals/runtime/events.go`)
Each Go event struct becomes a Lean structure; the Go `Type EventType`
field is `etype`. -/

/-- Go `type RunID string`. -/
abbrev RunID := String

structure RunStartedEvent where
  runID : RunID
  workspaceRoot : String
  seq : Int
  etype : String
  deriving Repr, DecidableEq

structure RunFinishedEvent where
  runID : RunID
  seq : Int
  etype : String
  deriving Repr, DecidableEq

structure RunFailedEvent where
  runID : RunID
  reason : String
  seq : Int
  etype : String
  deriving Repr, DecidableEq

structure StepStartedEvent where
  runID : RunID
  stepID : String
  phase : Phase
  seq : Int
  etype : String
  deriving Repr, DecidableEq

structure StepFinishedEvent where
  runID : RunID
  stepID : String
  phase : Phase
  seq : Int
  etype : String
  deriving Repr, DecidableEq

structure StepFailedEvent where
  runID : RunID
  stepID : String
  phase : Phase
  reason : String
  seq : Int
  etype : String
  deriving Repr, DecidableEq

structure LLMRequestedEvent where
  runID : RunID
  stepID : String
  seq : Int
  etype : String
  deriving Repr, DecidableEq

structure LLMRespondedEvent where
  runID : RunID
  stepID : String
  seq : Int
  etype : String
  deriving Repr, DecidableEq

structure ToolCalledEvent where
  runID : RunID
  stepID : String
  toolName : String
  seq : Int
  etype : String
  deriving Repr, DecidableEq

structure ToolReturnedEvent where
  runID : RunID
  stepID : String
  toolName : String
  seq : Int
  etype : String
  deriving Repr, DecidableEq

structure ToolFailedEvent where
  runID : RunID
  stepID : String
  toolName : String
  reason : String
  seq : Int
  etype : String
  deriving Repr, DecidableEq

structure ArtifactCreatedEvent where
  runID : RunID
  stepID : String
  path : String
  seq : Int
  etype : String
  deriving Repr, DecidableEq

/-- The sealed `Event` interface: a union of the twelve event structs. -/
inductive Event where
  | runStarted (e : RunStartedEvent)
  | runFinished (e : RunFinishedEvent)
  | runFailed (e : RunFailedEvent)
  | stepStarted (e : StepStartedEvent)
  | stepFinished (e : StepFinishedEvent)
  | stepFailed (e : StepFailedEvent)
  | llmRequested (e : LLMRequestedEvent)
  | llmResponded (e : LLMRespondedEvent)
  | toolCalled (e : ToolCalledEvent)
  | toolReturned (e : ToolReturnedEvent)
  | toolFailed (e : ToolFailedEvent)
  | artifactCreated (e : ArtifactCreatedEvent)
  deriving Repr, DecidableEq

/-! ## Formatter (`internals/runtime/formatter.go`)
Each constructor mirrors the `assert.*` calls of its Go counterpart in source
order; a failed assertion (Go panic) is the `.error` case. -/

def FormatRunStarted (seq : Int) (runID : RunID) (workspaceRoot : String) :
    Except String RunStartedEvent :=
  if seq ≤ 0 then .error "seq must be positive"
  else if runID = "" then .error "runID must not be empty"
  else if workspaceRoot = "" then .error "workspaceRoot must not be empty"
  else .ok ⟨runID, workspaceRoot, seq, "run.started"⟩

def FormatRunFinished (seq : Int) (runID : RunID) :
    Except String RunFinishedEvent :=
  if seq ≤ 0 then .error "seq must be positive"
  else if runID = "" then .error "runID must not be empty"
  else .ok ⟨runID, seq, "run.finished"⟩

def FormatRunFailed (seq : Int) (runID : RunID) (reason : String) :
    Except String RunFailedEvent :=
  if seq ≤ 0 then .error "seq must be positive"
  else if runID = "" then .error "runID must not be empty"
  else if reason = "" then .error "reason must not be empty"
  else .ok ⟨runID, reason, seq, "run.failed"⟩

def FormatStepStarted (seq : Int) (runID : RunID) (stepID : String)
    (phase : Phase) : Except String StepStartedEvent :=
  if seq ≤ 0 then .error "seq must be positive"
  else if runID = "" then .error "runID must not be empty"
  else if stepID = "" then .error "stepID must not be empty"
  else if phase ≤ 0 then .error "phase must be positive"
  else .ok ⟨runID, stepID, phase, seq, "step.started"⟩

def FormatStepFinished (seq : Int) (runID : RunID) (stepID : String)
    (phase : Phase) : Except String StepFinishedEvent :=
  if seq ≤ 0 then .error "seq must be positive"
  else if runID = "" then .error "runID must not be empty"
  else if stepID = "" then .error "stepID must not be empty"
  else if phase ≤ 0 then .error "phase must be positive"
  else .ok ⟨runID, stepID, phase, seq, "step.finished"⟩

def FormatStepFailed (seq : Int) (runID : RunID) (stepID : String)
    (phase : Phase) (reason : String) : Except String StepFailedEvent :=
  if seq ≤ 0 then .error "seq must be positive"
  else if runID = "" then .error "runID must not be empty"
  else if stepID = "" then .error "stepID must not be empty"
  else if phase ≤ 0 then .error "phase must be positive"
  else if reason = "" then .error "reason must not be empty"
  else .ok ⟨runID, stepID, phase, reason, seq, "step.failed"⟩

def FormatLLMRequested (seq : Int) (runID : RunID) (stepID : String) :
    Except String LLMRequestedEvent :=
  if seq ≤ 0 then .error "seq must be positive"
  else if runID = "" then .error "runID must not be empty"
  else if stepID = "" then .error "stepID must not be empty"
  else .ok ⟨runID, stepID, seq, "llm.requested"⟩

def FormatLLMResponded (seq : Int) (runID : RunID) (stepID : String) :
    Except String LLMRespondedEvent :=
  if seq ≤ 0 then .error "seq must be positive"
  else if runID = "" then .error "runID must not be empty"
  else if stepID = "" then .error "stepID must not be empty"
  else .ok ⟨runID, stepID, seq, "llm.responded"⟩

def FormatToolCalled (seq : Int) (runID : RunID) (stepID toolName : String) :
    Except String ToolCalledEvent :=
  if seq ≤ 0 then .error "seq must be positive"
  else if runID = "" then .error "runID must not be empty"
  else if stepID = "" then .error "stepID must not be empty"
  else if toolName = "" then .error "toolName must not be empty"
  else .ok ⟨runID, stepID, toolName, seq, "tool.called"⟩

def FormatToolReturned (seq : Int) (runID : RunID) (stepID toolName : String) :
    Except String ToolReturnedEvent :=
  if seq ≤ 0 then .error "seq must be positive"
  else if runID = "" then .error "runID must not be empty"
  else if stepID = "" then .error "stepID must not be empty"
  else if toolName = "" then .error "toolName must not be empty"
  else .ok ⟨runID, stepID, toolName, seq, "tool.returned"⟩

def FormatToolFailed (seq : Int) (runID : RunID)
    (stepID toolName reason : String) : Except String ToolFailedEvent :=
  if seq ≤ 0 then .error "seq must be positive"
  else if runID = "" then .error "runID must not be empty"
  else if stepID = "" then .error "stepID must not be empty"
  else if toolName = "" then .error "toolName must not be empty"
  else if reason = "" then .error "reason must not be empty"
  else .ok ⟨runID, stepID, toolName, reason, seq, "tool.failed"⟩

def FormatArtifactCreated (seq : Int) (runID : RunID) (stepID path : String) :
    Except String ArtifactCreatedEvent :=
  if seq ≤ 0 then .error "seq must be positive"
  else if runID = "" then .error "runID must not be empty"
  else if stepID = "" then .error "stepID must not be empty"
  else if path = "" then .error "path must not be empty"
  else .ok ⟨runID, stepID, path, seq, "artifact.created"⟩

/-! ## Event log (`internals/runtime/log.go`) -/

/-- A line of the on-disk JSONL file, abstracted to what `scanLastSeq`
observes: either it fails to parse as JSON, or it parses and exposes a
`seq` (the Go unmarshal into a struct holding only an int64 Seq yields 0 when the key is
absent, so a parsed line always has some seq value). -/
inductive Line where
  | malformed
  | json (seq : Int)
  deriving Repr, DecidableEq

/-- The typed append requests of `log.go` (the `appendRequest` union);
reply channels are collapsed into return values. -/
inductive AppendRequest where
  | runStarted (runID : RunID) (workspaceRoot : String)
  | runFinished (runID : RunID)
  | runFailed (runID : RunID) (reason : String)
  | stepStarted (runID : RunID) (stepID : String) (phase : Phase)
  | stepFinished (runID : RunID) (stepID : String) (phase : Phase)
  | stepFailed (runID : RunID) (stepID : String) (phase : Phase) (reason : String)
  | llmRequested (runID : RunID) (stepID : String)
  | llmResponded (runID : RunID) (stepID : String)
  | toolCalled (runID : RunID) (stepID : String) (toolName : String)
  | toolReturned (runID : RunID) (stepID : String) (toolName : String)
  | toolFailed (runID : RunID) (stepID : String) (toolName : String) (reason : String)
  | artifactCreated (runID : RunID) (stepID : String) (path : String)
  deriving Repr, DecidableEq

/-- Outcome of one append as seen by the caller: the Go nil error, a
returned non-nil error, or a panic (assertion failure) in the writer. -/
inductive Outcome where
  | ok
  | error (msg : String)
  | panicked (msg : String)
  deriving Repr, DecidableEq

/-- The `switch` of `EventLog.processRequest` that dispatches to the
formatter; a formatter assertion failure propagates as `.error` here and
becomes a panic outcome in `processRequest`. -/
def formatEvent (seq : Int) : AppendRequest → Except String Event
  | .runStarted runID ws => (FormatRunStarted seq runID ws).map .runStarted
  | .runFinished runID => (FormatRunFinished seq runID).map .runFinished
  | .runFailed runID reason => (FormatRunFailed seq runID reason).map .runFailed
  | .stepStarted runID stepID phase =>
    (FormatStepStarted seq runID stepID phase).map .stepStarted
  | .stepFinished runID stepID phase =>
    (FormatStepFinished seq runID stepID phase).map .stepFinished
  | .stepFailed runID stepID phase reason =>
    (FormatStepFailed seq runID stepID phase reason).map .stepFailed
  | .llmRequested runID stepID =>
    (FormatLLMRequested seq runID stepID).map .llmRequested
  | .llmResponded runID stepID =>
    (FormatLLMResponded seq runID stepID).map .llmResponded
  | .toolCalled runID stepID toolName =>
    (FormatToolCalled seq runID stepID toolName).map .toolCalled
  | .toolReturned runID stepID toolName =>
    (FormatToolReturned seq runID stepID toolName).map .toolReturned
  | .toolFailed runID stepID toolName reason =>
    (FormatToolFailed seq runID stepID toolName reason).map .toolFailed
  | .artifactCreated runID stepID path =>
    (FormatArtifactCreated seq runID stepID path).map .artifactCreated

/-- `json.Encoder.Encode` on one event: string and integer fields always
marshal; a `Phase` field goes through `Phase.MarshalJSON`, which errors on
an invalid phase.  On success the emitted line is valid JSON exposing the
`seq` of the event. -/
def encodeEvent : Event → Except String Line
  | .runStarted e => .ok (.json e.seq)
  | .runFinished e => .ok (.json e.seq)
  | .runFailed e => .ok (.json e.seq)
  | .stepStarted e => (marshalPhase e.phase).map fun _ => .json e.seq
  | .stepFinished e => (marshalPhase e.phase).map fun _ => .json e.seq
  | .stepFailed e => (marshalPhase e.phase).map fun _ => .json e.seq
  | .llmRequested e => .ok (.json e.seq)
  | .llmResponded e => .ok (.json e.seq)
  | .toolCalled e => .ok (.json e.seq)
  | .toolReturned e => .ok (.json e.seq)
  | .toolFailed e => .ok (.json e.seq)
  | .artifactCreated e => .ok (.json e.seq)

/-- The `seq` field of an event, regardless of variant. -/
def eventSeq : Event → Int
  | .runStarted e => e.seq
  | .runFinished e => e.seq
  | .runFailed e => e.seq
  | .stepStarted e => e.seq
  | .stepFinished e => e.seq
  | .stepFailed e => e.seq
  | .llmRequested e => e.seq
  | .llmResponded e => e.seq
  | .toolCalled e => e.seq
  | .toolReturned e => e.seq
  | .toolFailed e => e.seq
  | .artifactCreated e => e.seq

/-- The `EventLog` state: the `nextSeq` counter of the writer, the file contents
(one `Line` per written event), and the atomic `closed` flag.  The file
handle, buffered writer and channels of the Go struct have no content in
the sequential model. -/
structure EventLog where
  nextSeq : Int
  lines : List Line
  closed : Bool
  deriving Repr, DecidableEq

/-- `EventLog.processRequest`: assert `nextSeq > 0`, take and increment
`nextSeq`, format (a formatter assertion failure panics the writer),
encode (an encode error is returned to the caller with the seq already
consumed), write the line, flush. -/
def processRequest (l : EventLog) (req : AppendRequest) : EventLog × Outcome :=
  if l.nextSeq ≤ 0 then (l, .panicked "nextSeq must be positive")
  else
    let seq := l.nextSeq
    let l1 : EventLog := { l with nextSeq := seq + 1 }
    match formatEvent seq req with
    | .error m => (l1, .panicked m)
    | .ok ev =>
      match encodeEvent ev with
      | .error m => (l1, .error ("failed to encode event: " ++ m))
      | .ok line => ({ l1 with lines := l1.lines ++ [line] }, .ok)

/-- `EventLog.AppendRunStarted`: reject on the closed flag, otherwise hand
the request to the writer. -/
def AppendRunStarted (l : EventLog) (runID : RunID) (workspaceRoot : String) :
    EventLog × Outcome :=
  if l.closed then (l, .error "cannot append to closed log")
  else processRequest l (.runStarted runID workspaceRoot)

/-- `EventLog.AppendRunFinished`. -/
def AppendRunFinished (l : EventLog) (runID : RunID) : EventLog × Outcome :=
  if l.closed then (l, .error "cannot append to closed log")
  else processRequest l (.runFinished runID)

/-- `EventLog.AppendRunFailed`. -/
def AppendRunFailed (l : EventLog) (runID : RunID) (reason : String) :
    EventLog × Outcome :=
  if l.closed then (l, .error "cannot append to closed log")
  else processRequest l (.runFailed runID reason)

/-- `EventLog.AppendStepStarted`. -/
def AppendStepStarted (l : EventLog) (runID : RunID) (stepID : String)
    (phase : Phase) : EventLog × Outcome :=
  if l.closed then (l, .error "cannot append to closed log")
  else processRequest l (.stepStarted runID stepID phase)

/-- `EventLog.AppendStepFinished`. -/
def AppendStepFinished (l : EventLog) (runID : RunID) (stepID : String)
    (phase : Phase) : EventLog × Outcome :=
  if l.closed then (l, .error "cannot append to closed log")
  else processRequest l (.stepFinished runID stepID phase)

/-- `EventLog.AppendStepFailed`. -/
def AppendStepFailed (l : EventLog) (runID : RunID) (stepID : String)
    (phase : Phase) (reason : String) : EventLog × Outcome :=
  if l.closed then (l, .error "cannot append to closed log")
  else processRequest l (.stepFailed runID stepID phase reason)

/-- `EventLog.AppendLLMRequested`. -/
def AppendLLMRequested (l : EventLog) (runID : RunID) (stepID : String) :
    EventLog × Outcome :=
  if l.closed then (l, .error "cannot append to closed log")
  else processRequest l (.llmRequested runID stepID)

/-- `EventLog.AppendLLMResponded`. -/
def AppendLLMResponded (l : EventLog) (runID : RunID) (stepID : String) :
    EventLog × Outcome :=
  if l.closed then (l, .error "cannot append to closed log")
  else processRequest l (.llmResponded runID stepID)

/-- `EventLog.AppendToolCalled`. -/
def AppendToolCalled (l : EventLog) (runID : RunID) (stepID toolName : String) :
    EventLog × Outcome :=
  if l.closed then (l, .error "cannot append to closed log")
  else processRequest l (.toolCalled runID stepID toolName)

/-- `EventLog.AppendToolReturned`. -/
def AppendToolReturned (l : EventLog) (runID : RunID)
    (stepID toolName : String) : EventLog × Outcome :=
  if l.closed then (l, .error "cannot append to closed log")
  else processRequest l (.toolReturned runID stepID toolName)

/-- `EventLog.AppendToolFailed`. -/
def AppendToolFailed (l : EventLog) (runID : RunID)
    (stepID toolName reason : String) : EventLog × Outcome :=
  if l.closed then (l, .error "cannot append to closed log")
  else processRequest l (.toolFailed runID stepID toolName reason)

/-- `EventLog.AppendArtifactCreated`. -/
def AppendArtifactCreated (l : EventLog) (runID : RunID)
    (stepID path : String) : EventLog × Outcome :=
  if l.closed then (l, .error "cannot append to closed log")
  else processRequest l (.artifactCreated runID stepID path)

/-- `EventLog.Close`: idempotent with an error on the second call; sets the
closed flag, drains the (here: empty) queue, flushes, closes the file. -/
def Close (l : EventLog) : EventLog × Outcome :=
  if l.closed then (l, .error "log already closed")
  else ({ l with closed := true }, .ok)

/-- Dispatch one public append call for a request value. -/
def appendReq (l : EventLog) : AppendRequest → EventLog × Outcome
  | .runStarted runID ws => AppendRunStarted l runID ws
  | .runFinished runID => AppendRunFinished l runID
  | .runFailed runID reason => AppendRunFailed l runID reason
  | .stepStarted runID stepID phase => AppendStepStarted l runID stepID phase
  | .stepFinished runID stepID phase => AppendStepFinished l runID stepID phase
  | .stepFailed runID stepID phase reason =>
    AppendStepFailed l runID stepID phase reason
  | .llmRequested runID stepID => AppendLLMRequested l runID stepID
  | .llmResponded runID stepID => AppendLLMResponded l runID stepID
  | .toolCalled runID stepID toolName => AppendToolCalled l runID stepID toolName
  | .toolReturned runID stepID toolName =>
    AppendToolReturned l runID stepID toolName
  | .toolFailed runID stepID toolName reason =>
    AppendToolFailed l runID stepID toolName reason
  | .artifactCreated runID stepID path =>
    AppendArtifactCreated l runID stepID path

/-- Run a sequence of append calls, collecting the outcomes.  A panic
kills the writer goroutine, so processing stops there. -/
def runAppendsOut (l : EventLog) : List AppendRequest → EventLog × List Outcome
  | [] => (l, [])
  | r :: rs =>
    match appendReq l r with
    | (l1, .panicked m) => (l1, [.panicked m])
    | (l1, out) =>
      let (l2, outs) := runAppendsOut l1 rs
      (l2, out :: outs)

/-- The final log state after a sequence of append calls. -/
def runAppends (l : EventLog) (rs : List AppendRequest) : EventLog :=
  (runAppendsOut l rs).1

/-! ### Open / scan-to-resume -/

/-- A scan failure: the 1-based line number the Go error message carries,
and which check fired. -/
inductive ScanErrorKind where
  | invalidJSON
  | nonIncreasing (seq prev : Int)
  | assertFailed
  deriving Repr, DecidableEq

structure ScanError where
  lineNum : Nat
  kind : ScanErrorKind
  deriving Repr, DecidableEq

/-- The scanner loop of `scanLastSeq`: `lastSeq` and the running line
count are the Go locals.  Per line: JSON parse, the `seq <= lastSeq`
rejection, then the (source-redundant) `assert.Gt(seq, 0)`. -/
def scanGo : List Line → Int → Nat → Except ScanError Int
  | [], lastSeq, _ => .ok lastSeq
  | line :: rest, lastSeq, lineNum =>
    let n := lineNum + 1
    match line with
    | .malformed => .error ⟨n, .invalidJSON⟩
    | .json seq =>
      if seq ≤ lastSeq then .error ⟨n, .nonIncreasing seq lastSeq⟩
      else if seq ≤ 0 then .error ⟨n, .assertFailed⟩
      else scanGo rest seq n

/-- Go `scanLastSeq`: scan the whole file starting from `lastSeq = 0`. -/
def scanLastSeq (lines : List Line) : Except ScanError Int :=
  scanGo lines 0 0

/-- Go `OpenEventLog`: the file argument is `none` when the file does not
exist and `some lines` for its contents otherwise.  A missing or
zero-length file starts at `nextSeq = 1`; an existing file is scanned and
`nextSeq = lastSeq + 1`.  The file is opened in append mode, so the log
keeps the existing lines. -/
def OpenEventLog (file : Option (List Line)) : Except ScanError EventLog :=
  let isNewFile := match file with
    | none => true
    | some ls => ls.isEmpty
  let existing := file.getD []
  if isNewFile then .ok ⟨1, existing, false⟩
  else
    match scanLastSeq existing with
    | .error e => .error e
    | .ok lastSeq => .ok ⟨lastSeq + 1, existing, false⟩

/-- The `seq` values of the parsed lines of a file, in order. -/
def lineSeqs (ls : List Line) : List Int :=
  ls.filterMap fun l => match l with
    | .malformed => none
    | .json s => some s

/-! ## Engine (`internals/runtime/engine.go`) -/

/-- Go `RunHandle`: the cached per-run state.  The Go maps `Attempts` and
`PhaseDone` are association lists, created empty by `handleStartRun`. -/
structure RunHandle where
  id : RunID
  lastSeq : Int
  terminal : Bool
  phase : Phase
  workspaceRoot : String
  attempts : List (Phase × Int)
  phaseDone : List (Phase × Bool)
  deriving Repr, DecidableEq

/-- An operation on the `EventLog` of a run that the engine could perform.  The
embedding of each engine handler records, in order, every `OpenEventLog`
and `Append*` call its Go body makes, so a claim about what the handler
does (or does not) write can be stated over this trace. -/
inductive LogAction where
  | openedEventLog (runID : RunID) (workspaceRoot : String)
  | appendedRunStarted (runID : RunID) (workspaceRoot : String)
  deriving Repr, DecidableEq

/-- The reply sent on the result channel of a `StartRunCmd`. -/
inductive StartRunReply where
  | ok (id : RunID)
  | err (msg : String)
  deriving Repr, DecidableEq

/-- The observable effect of one `handleStartRun` call: the updated run
table, the reply (none when the handler panicked), the panic flag, and the
trace of event-log operations performed. -/
structure StartRunStep where
  runs : List (RunID × RunHandle)
  reply : Option StartRunReply
  panicked : Bool
  logActions : List LogAction
  deriving Repr, DecidableEq

/-- Go `handleStartRun` (`engine.go:79`): validate the workspace root,
normalize it, generate an ID (`freshId` stands for the `generateRunID()`
result), panic on a collision with a live handle, insert a `RunHandle`
with initial phase `data_ingestion`, and reply with the ID.  The Go body
contains no `OpenEventLog` or `Append*` call, so the recorded
`logActions` trace is empty on every path. -/
def handleStartRun (evalSymlinks : String → Except String String)
    (runs : List (RunID × RunHandle)) (workspaceRoot : String)
    (freshId : RunID) : StartRunStep :=
  match Workspace_root workspaceRoot with
  | some e => ⟨runs, some (.err e), false, []⟩
  | none =>
    match normalizeWorkspaceRoot evalSymlinks workspaceRoot with
    | .error e => ⟨runs, some (.err e), false, []⟩
    | .ok normalizedPath =>
      if (runs.lookup freshId).isSome then ⟨runs, none, true, []⟩
      else
        let handle : RunHandle :=
          ⟨freshId, 0, false, PhaseDataIngestion, normalizedPath, [], []⟩
        ⟨(freshId, handle) :: runs, some (.ok freshId), false, []⟩

/-- Go `Engine.StartRun`: submit a `StartRunCmd` and wait for the reply;
the run loop executes `handleStartRun`. -/
def StartRun (evalSymlinks : String → Except String String)
    (runs : List (RunID × RunHandle)) (workspaceRoot : String)
    (freshId : RunID) : StartRunStep :=
  handleStartRun evalSymlinks runs workspaceRoot freshId

/-! ## Spec-side predicates used by the theorem statements -/

/-- A well-formed file: every line is valid JSON and the seq values are
positive and strictly increasing (the `0 ::` seed forces positivity of the
first seq). -/
def allJsonStrictInc (ls : List Line) : Prop :=
  (∀ l ∈ ls, l ≠ Line.malformed) ∧ List.Chain' (· < ·) (0 :: lineSeqs ls)

/-- The seq value the scanner compares line `k` (1-based) against: 0 for
the first line, otherwise the seq of line `k - 1`. -/
def prevSeqAt (ls : List Line) (k : Nat) : Int :=
  if k ≤ 1 then 0
  else match ls.getD (k - 2) Line.malformed with
    | .json s => s
    | .malformed => 0

/-- Line `k` (1-based) genuinely offends: it is malformed, or its seq is
not strictly greater than the seq before it. -/
def offendingAt (ls : List Line) (k : Nat) : Prop :=
  ls.getD (k - 1) Line.malformed = Line.malformed ∨
  ∃ s, ls.getD (k - 1) Line.malformed = Line.json s ∧ s ≤ prevSeqAt ls k

/-- The file produced by `n` consecutive successful appends starting at
seq `s`: lines `json s, json (s+1), …`. -/
def seqList (s : Int) : Nat → List Line
  | 0 => []
  | n + 1 => Line.json s :: seqList (s + 1) n

/-- Invariant carried by every reachable `EventLog`: the written seqs are
strictly increasing, positive, and below `nextSeq`, which is positive. -/
def logWF (l : EventLog) : Prop :=
  List.Pairwise (· < ·) (lineSeqs l.lines) ∧
  (∀ s ∈ lineSeqs l.lines, 0 < s ∧ s < l.nextSeq) ∧ 0 < l.nextSeq

/-! ## Claim theorems -/

/-- C5: for valid phases `from` and `to` (ordinals 1 through 4),
`IsValidTransition from to` returns true exactly when `to = from` (retry)
or `to = from + 1` (strict forward step); every backward move and every
forward skip yields false. -/
theorem isValidTransition_iff (f t : Phase)
    (hf : phaseIsValid f = true) (ht : phaseIsValid t = true) :
    IsValidTransition f t = some (decide (t = f ∨ t = f + 1)) := by
  simp only [phaseIsValid, MinPhase, MaxPhase, PhaseDataIngestion,
    PhaseOrderExecution, Bool.and_eq_true, decide_eq_true_eq] at hf ht
  obtain ⟨hf1, hf2⟩ := hf
  obtain ⟨ht1, ht2⟩ := ht
  interval_cases f <;> interval_cases t <;> decide

/-- Witness for `isValidTransition_iff` at the concrete transition 1 → 2. -/
theorem isValidTransition_iff_witness :
    IsValidTransition PhaseDataIngestion PhaseSignalGeneration = some true :=
  isValidTransition_iff PhaseDataIngestion PhaseSignalGeneration
    (by decide) (by decide)

/-- C9: for each of the four valid phases, parsing the string form gives
the phase back, and `ParsePhase` on any string other than the four phase
names fails (panics, modelled as `none`) rather than returning a phase. -/
theorem parsePhase_roundtrip :
    (∀ p : Phase, phaseIsValid p = true →
      ∃ s, phaseString p = some s ∧ ParsePhase s = some p) ∧
    (∀ s : String, s ≠ "data_ingestion" → s ≠ "signal_generation" →
      s ≠ "risk_validation" → s ≠ "order_execution" → ParsePhase s = none) := by
  constructor
  · intro p hp
    simp only [phaseIsValid, MinPhase, MaxPhase, PhaseDataIngestion,
      PhaseOrderExecution, Bool.and_eq_true, decide_eq_true_eq] at hp
    obtain ⟨h1, h2⟩ := hp
    interval_cases p
    · exact ⟨"data_ingestion", by decide⟩
    · exact ⟨"signal_generation", by decide⟩
    · exact ⟨"risk_validation", by decide⟩
    · exact ⟨"order_execution", by decide⟩
  · intro s h1 h2 h3 h4
    simp [ParsePhase, h1, h2, h3, h4]

/-- Witness for `parsePhase_roundtrip`: the round trip at
`risk_validation` and the rejection of a non-phase string. -/
theorem parsePhase_roundtrip_witness :
    (∃ s, phaseString PhaseRiskValidation = some s ∧
      ParsePhase s = some PhaseRiskValidation) ∧
    ParsePhase "planner" = none :=
  ⟨parsePhase_roundtrip.1 PhaseRiskValidation (by decide),
   parsePhase_roundtrip.2 "planner" (by decide) (by decide) (by decide)
    (by decide)⟩

/-- C3 (code bug): `validate.Workspace_root` rejects the empty and the
relative path, but it accepts the absolute path `/this/path/does/not/exist`
(returns nil error) although no such directory exists — the function takes
no filesystem input at all, so it cannot perform the `exists` check its
own doc comment announces. -/
theorem workspace_root_existence_unchecked :
    Workspace_root "" = some "workspace_root must not be empty" ∧
    Workspace_root "relative/path" = some "path must be absolute: relative/path" ∧
    Workspace_root "/this/path/does/not/exist" = none :=
  ⟨rfl, rfl, rfl⟩

/-- C1 (counterexample): on a valid workspace root, `handleStartRun`
replies with the generated run ID and installs a `RunHandle` with initial
phase `data_ingestion`, but its trace of event-log operations is empty: it
neither opens the EventLog of the run nor appends `run.started`. -/
theorem handleStartRun_no_log_operations :
    handleStartRun (fun s => .ok s) [] "/tmp/ws" "run-1" =
      ⟨[("run-1", ⟨"run-1", 0, false, PhaseDataIngestion, "/tmp/ws", [], []⟩)],
       some (.ok "run-1"), false, []⟩ :=
  rfl

/-- C1 (amended): for every call to `Engine.StartRun` whose workspace root
passes validation and normalization and whose generated ID is fresh, the
engine creates a `RunHandle` whose initial phase is `data_ingestion` and
returns the ID to the caller; it performs no event-log operation (no
`OpenEventLog`, no `run.started` append). -/
theorem startRun_creates_handle_only
    (evalSymlinks : String → Except String String)
    (runs : List (RunID × RunHandle)) (ws : String) (freshId : RunID)
    (normalized : String)
    (hv : Workspace_root ws = none)
    (hn : normalizeWorkspaceRoot evalSymlinks ws = .ok normalized)
    (hfresh : runs.lookup freshId = none) :
    StartRun evalSymlinks runs ws freshId =
      ⟨(freshId, ⟨freshId, 0, false, PhaseDataIngestion, normalized, [], []⟩)
        :: runs, some (.ok freshId), false, []⟩ := by
  simp [StartRun, handleStartRun, hv, hn, hfresh]

/-- Witness for `startRun_creates_handle_only` on the identity resolver at
`/data/ws`. -/
theorem startRun_creates_handle_only_witness :
    StartRun (fun s => .ok s) [] "/data/ws" "run-2" =
      ⟨[("run-2", ⟨"run-2", 0, false, PhaseDataIngestion, "/data/ws", [], []⟩)],
       some (.ok "run-2"), false, []⟩ :=
  startRun_creates_handle_only (fun s => .ok s) [] "/data/ws" "run-2"
    "/data/ws" rfl rfl rfl

/-- C4 (counterexample): `FormatStepStarted` with phase 5 — not a valid
phase — does not abort: it returns a fully-formed event, because the
constructor only asserts that the phase is positive. -/
theorem formatStepStarted_invalid_phase_accepted :
    FormatStepStarted 1 "run-x" "s1" 5 =
      .ok ⟨"run-x", "s1", 5, 1, "step.started"⟩ ∧
    phaseIsValid 5 = false :=
  ⟨rfl, rfl⟩

/-- C4 (amended): every formatter constructor aborts exactly when
`seq ≤ 0`, when a required string argument is empty, or when a phase
argument is not positive (invalid phases above 4 are accepted); otherwise
it returns the fully-formed event carrying the given seq and the type tag
of the variant. -/
theorem formatter_checks :
    (∀ (seq : Int) (rid ws : String),
      (0 < seq ∧ rid ≠ "" ∧ ws ≠ "" →
        FormatRunStarted seq rid ws = .ok ⟨rid, ws, seq, "run.started"⟩) ∧
      (¬(0 < seq ∧ rid ≠ "" ∧ ws ≠ "") →
        ∃ m, FormatRunStarted seq rid ws = .error m)) ∧
    (∀ (seq : Int) (rid : String),
      (0 < seq ∧ rid ≠ "" →
        FormatRunFinished seq rid = .ok ⟨rid, seq, "run.finished"⟩) ∧
      (¬(0 < seq ∧ rid ≠ "") →
        ∃ m, FormatRunFinished seq rid = .error m)) ∧
    (∀ (seq : Int) (rid reason : String),
      (0 < seq ∧ rid ≠ "" ∧ reason ≠ "" →
        FormatRunFailed seq rid reason = .ok ⟨rid, reason, seq, "run.failed"⟩) ∧
      (¬(0 < seq ∧ rid ≠ "" ∧ reason ≠ "") →
        ∃ m, FormatRunFailed seq rid reason = .error m)) ∧
    (∀ (seq : Int) (rid sid : String) (phase : Phase),
      (0 < seq ∧ rid ≠ "" ∧ sid ≠ "" ∧ 0 < phase →
        FormatStepStarted seq rid sid phase =
          .ok ⟨rid, sid, phase, seq, "step.started"⟩) ∧
      (¬(0 < seq ∧ rid ≠ "" ∧ sid ≠ "" ∧ 0 < phase) →
        ∃ m, FormatStepStarted seq rid sid phase = .error m)) ∧
    (∀ (seq : Int) (rid sid : String) (phase : Phase),
      (0 < seq ∧ rid ≠ "" ∧ sid ≠ "" ∧ 0 < phase →
        FormatStepFinished seq rid sid phase =
          .ok ⟨rid, sid, phase, seq, "step.finished"⟩) ∧
      (¬(0 < seq ∧ rid ≠ "" ∧ sid ≠ "" ∧ 0 < phase) →
        ∃ m, FormatStepFinished seq rid sid phase = .error m)) ∧
    (∀ (seq : Int) (rid sid : String) (phase : Phase) (reason : String),
      (0 < seq ∧ rid ≠ "" ∧ sid ≠ "" ∧ 0 < phase ∧ reason ≠ "" →
        FormatStepFailed seq rid sid phase reason =
          .ok ⟨rid, sid, phase, reason, seq, "step.failed"⟩) ∧
      (¬(0 < seq ∧ rid ≠ "" ∧ sid ≠ "" ∧ 0 < phase ∧ reason ≠ "") →
        ∃ m, FormatStepFailed seq rid sid phase reason = .error m)) ∧
    (∀ (seq : Int) (rid sid : String),
      (0 < seq ∧ rid ≠ "" ∧ sid ≠ "" →
        FormatLLMRequested seq rid sid = .ok ⟨rid, sid, seq, "llm.requested"⟩) ∧
      (¬(0 < seq ∧ rid ≠ "" ∧ sid ≠ "") →
        ∃ m, FormatLLMRequested seq rid sid = .error m)) ∧
    (∀ (seq : Int) (rid sid : String),
      (0 < seq ∧ rid ≠ "" ∧ sid ≠ "" →
        FormatLLMResponded seq rid sid = .ok ⟨rid, sid, seq, "llm.responded"⟩) ∧
      (¬(0 < seq ∧ rid ≠ "" ∧ sid ≠ "") →
        ∃ m, FormatLLMResponded seq rid sid = .error m)) ∧
    (∀ (seq : Int) (rid sid tool : String),
      (0 < seq ∧ rid ≠ "" ∧ sid ≠ "" ∧ tool ≠ "" →
        FormatToolCalled seq rid sid tool =
          .ok ⟨rid, sid, tool, seq, "tool.called"⟩) ∧
      (¬(0 < seq ∧ rid ≠ "" ∧ sid ≠ "" ∧ tool ≠ "") →
        ∃ m, FormatToolCalled seq rid sid tool = .error m)) ∧
    (∀ (seq : Int) (rid sid tool : String),
      (0 < seq ∧ rid ≠ "" ∧ sid ≠ "" ∧ tool ≠ "" →
        FormatToolReturned seq rid sid tool =
          .ok ⟨rid, sid, tool, seq, "tool.returned"⟩) ∧
      (¬(0 < seq ∧ rid ≠ "" ∧ sid ≠ "" ∧ tool ≠ "") →
        ∃ m, FormatToolReturned seq rid sid tool = .error m)) ∧
    (∀ (seq : Int) (rid sid tool reason : String),
      (0 < seq ∧ rid ≠ "" ∧ sid ≠ "" ∧ tool ≠ "" ∧ reason ≠ "" →
        FormatToolFailed seq rid sid tool reason =
          .ok ⟨rid, sid, tool, reason, seq, "tool.failed"⟩) ∧
      (¬(0 < seq ∧ rid ≠ "" ∧ sid ≠ "" ∧ tool ≠ "" ∧ reason ≠ "") →
        ∃ m, FormatToolFailed seq rid sid tool reason = .error m)) ∧
    (∀ (seq : Int) (rid sid pa : String),
      (0 < seq ∧ rid ≠ "" ∧ sid ≠ "" ∧ pa ≠ "" →
        FormatArtifactCreated seq rid sid pa =
          .ok ⟨rid, sid, pa, seq, "artifact.created"⟩) ∧
      (¬(0 < seq ∧ rid ≠ "" ∧ sid ≠ "" ∧ pa ≠ "") →
        ∃ m, FormatArtifactCreated seq rid sid pa = .error m)) := by
  refine ⟨?_, ?_, ?_, ?_, ?_, ?_, ?_, ?_, ?_, ?_, ?_, ?_⟩
  · intro seq rid ws
    refine ⟨fun ⟨h1, h2, h3⟩ => ?_, fun h => ?_⟩
    · simp only [FormatRunStarted]
      rw [if_neg (by omega), if_neg h2, if_neg h3]
    · simp only [FormatRunStarted]
      split_ifs with h1 h2 h3
      · exact ⟨_, rfl⟩
      · exact ⟨_, rfl⟩
      · exact ⟨_, rfl⟩
      · exact absurd ⟨by omega, h2, h3⟩ h
  · intro seq rid
    refine ⟨fun ⟨h1, h2⟩ => ?_, fun h => ?_⟩
    · simp only [FormatRunFinished]
      rw [if_neg (by omega), if_neg h2]
    · simp only [FormatRunFinished]
      split_ifs with h1 h2
      · exact ⟨_, rfl⟩
      · exact ⟨_, rfl⟩
      · exact absurd ⟨by omega, h2⟩ h
  · intro seq rid reason
    refine ⟨fun ⟨h1, h2, h3⟩ => ?_, fun h => ?_⟩
    · simp only [FormatRunFailed]
      rw [if_neg (by omega), if_neg h2, if_neg h3]
    · simp only [FormatRunFailed]
      split_ifs with h1 h2 h3
      · exact ⟨_, rfl⟩
      · exact ⟨_, rfl⟩
      · exact ⟨_, rfl⟩
      · exact absurd ⟨by omega, h2, h3⟩ h
  · intro seq rid sid phase
    refine ⟨fun ⟨h1, h2, h3, h4⟩ => ?_, fun h => ?_⟩
    · simp only [FormatStepStarted]
      rw [if_neg (by omega), if_neg h2, if_neg h3, if_neg (not_le.mpr h4)]
    · simp only [FormatStepStarted]
      split_ifs with h1 h2 h3 h4
      · exact ⟨_, rfl⟩
      · exact ⟨_, rfl⟩
      · exact ⟨_, rfl⟩
      · exact ⟨_, rfl⟩
      · exact absurd ⟨by omega, h2, h3, not_le.mp h4⟩ h
  · intro seq rid sid phase
    refine ⟨fun ⟨h1, h2, h3, h4⟩ => ?_, fun h => ?_⟩
    · simp only [FormatStepFinished]
      rw [if_neg (by omega), if_neg h2, if_neg h3, if_neg (not_le.mpr h4)]
    · simp only [FormatStepFinished]
      split_ifs with h1 h2 h3 h4
      · exact ⟨_, rfl⟩
      · exact ⟨_, rfl⟩
      · exact ⟨_, rfl⟩
      · exact ⟨_, rfl⟩
      · exact absurd ⟨by omega, h2, h3, not_le.mp h4⟩ h
  · intro seq rid sid phase reason
    refine ⟨fun ⟨h1, h2, h3, h4, h5⟩ => ?_, fun h => ?_⟩
    · simp only [FormatStepFailed]
      rw [if_neg (by omega), if_neg h2, if_neg h3, if_neg (not_le.mpr h4), if_neg h5]
    · simp only [FormatStepFailed]
      split_ifs with h1 h2 h3 h4 h5
      · exact ⟨_, rfl⟩
      · exact ⟨_, rfl⟩
      · exact ⟨_, rfl⟩
      · exact ⟨_, rfl⟩
      · exact ⟨_, rfl⟩
      · exact absurd ⟨by omega, h2, h3, not_le.mp h4, h5⟩ h
  · intro seq rid sid
    refine ⟨fun ⟨h1, h2, h3⟩ => ?_, fun h => ?_⟩
    · simp only [FormatLLMRequested]
      rw [if_neg (by omega), if_neg h2, if_neg h3]
    · simp only [FormatLLMRequested]
      split_ifs with h1 h2 h3
      · exact ⟨_, rfl⟩
      · exact ⟨_, rfl⟩
      · exact ⟨_, rfl⟩
      · exact absurd ⟨by omega, h2, h3⟩ h
  · intro seq rid sid
    refine ⟨fun ⟨h1, h2, h3⟩ => ?_, fun h => ?_⟩
    · simp only [FormatLLMResponded]
      rw [if_neg (by omega), if_neg h2, if_neg h3]
    · simp only [FormatLLMResponded]
      split_ifs with h1 h2 h3
      · exact ⟨_, rfl⟩
      · exact ⟨_, rfl⟩
      · exact ⟨_, rfl⟩
      · exact absurd ⟨by omega, h2, h3⟩ h
  · intro seq rid sid tool
    refine ⟨fun ⟨h1, h2, h3, h4⟩ => ?_, fun h => ?_⟩
    · simp only [FormatToolCalled]
      rw [if_neg (by omega), if_neg h2, if_neg h3, if_neg h4]
    · simp only [FormatToolCalled]
      split_ifs with h1 h2 h3 h4
      · exact ⟨_, rfl⟩
      · exact ⟨_, rfl⟩
      · exact ⟨_, rfl⟩
      · exact ⟨_, rfl⟩
      · exact absurd ⟨by omega, h2, h3, h4⟩ h
  · intro seq rid sid tool
    refine ⟨fun ⟨h1, h2, h3, h4⟩ => ?_, fun h => ?_⟩
    · simp only [FormatToolReturned]
      rw [if_neg (by omega), if_neg h2, if_neg h3, if_neg h4]
    · simp only [FormatToolReturned]
      split_ifs with h1 h2 h3 h4
      · exact ⟨_, rfl⟩
      · exact ⟨_, rfl⟩
      · exact ⟨_, rfl⟩
      · exact ⟨_, rfl⟩
      · exact absurd ⟨by omega, h2, h3, h4⟩ h
  · intro seq rid sid tool reason
    refine ⟨fun ⟨h1, h2, h3, h4, h5⟩ => ?_, fun h => ?_⟩
    · simp only [FormatToolFailed]
      rw [if_neg (by omega), if_neg h2, if_neg h3, if_neg h4, if_neg h5]
    · simp only [FormatToolFailed]
      split_ifs with h1 h2 h3 h4 h5
      · exact ⟨_, rfl⟩
      · exact ⟨_, rfl⟩
      · exact ⟨_, rfl⟩
      · exact ⟨_, rfl⟩
      · exact ⟨_, rfl⟩
      · exact absurd ⟨by omega, h2, h3, h4, h5⟩ h
  · intro seq rid sid pa
    refine ⟨fun ⟨h1, h2, h3, h4⟩ => ?_, fun h => ?_⟩
    · simp only [FormatArtifactCreated]
      rw [if_neg (by omega), if_neg h2, if_neg h3, if_neg h4]
    · simp only [FormatArtifactCreated]
      split_ifs with h1 h2 h3 h4
      · exact ⟨_, rfl⟩
      · exact ⟨_, rfl⟩
      · exact ⟨_, rfl⟩
      · exact ⟨_, rfl⟩
      · exact absurd ⟨by omega, h2, h3, h4⟩ h

/-- Witness for `formatter_checks`: a successful construction and a
rejected one at concrete arguments. -/
theorem formatter_checks_witness :
    FormatStepStarted 2 "run-a" "s1" 3 =
      .ok ⟨"run-a", "s1", 3, 2, "step.started"⟩ ∧
    (∃ m, FormatRunFailed 0 "run-b" "boom" = .error m) :=
  ⟨(formatter_checks.2.2.2.1 2 "run-a" "s1" 3).1
    ⟨by decide, by decide, by decide, by decide⟩,
   (formatter_checks.2.2.1 0 "run-b" "boom").2 (by decide)⟩

/-- C8: after `Close` has been called on an `EventLog`, every one of the
twelve append operations returns the "cannot append to closed log" error —
an `.error`, never a `.panicked` — regardless of the arguments. -/
theorem append_after_close_errs (l : EventLog)
    (rid sid tool reason ws pa : String) (phase : Phase) :
    (AppendRunStarted (Close l).1 rid ws).2 = .error "cannot append to closed log" ∧
    (AppendRunFinished (Close l).1 rid).2 = .error "cannot append to closed log" ∧
    (AppendRunFailed (Close l).1 rid reason).2 = .error "cannot append to closed log" ∧
    (AppendStepStarted (Close l).1 rid sid phase).2 = .error "cannot append to closed log" ∧
    (AppendStepFinished (Close l).1 rid sid phase).2 = .error "cannot append to closed log" ∧
    (AppendStepFailed (Close l).1 rid sid phase reason).2 = .error "cannot append to closed log" ∧
    (AppendLLMRequested (Close l).1 rid sid).2 = .error "cannot append to closed log" ∧
    (AppendLLMResponded (Close l).1 rid sid).2 = .error "cannot append to closed log" ∧
    (AppendToolCalled (Close l).1 rid sid tool).2 = .error "cannot append to closed log" ∧
    (AppendToolReturned (Close l).1 rid sid tool).2 = .error "cannot append to closed log" ∧
    (AppendToolFailed (Close l).1 rid sid tool reason).2 = .error "cannot append to closed log" ∧
    (AppendArtifactCreated (Close l).1 rid sid pa).2 = .error "cannot append to closed log" := by
  have hc : ((Close l).1).closed = true := by
    by_cases h : l.closed <;> simp [Close, h]
  refine ⟨?_, ?_, ?_, ?_, ?_, ?_, ?_, ?_, ?_, ?_, ?_, ?_⟩ <;>
    simp [AppendRunStarted, AppendRunFinished, AppendRunFailed,
      AppendStepStarted, AppendStepFinished, AppendStepFailed,
      AppendLLMRequested, AppendLLMResponded, AppendToolCalled,
      AppendToolReturned, AppendToolFailed, AppendArtifactCreated, hc]

/-! ## Supporting lemmas about the event-log model -/

theorem lineSeqs_append (a b : List Line) :
    lineSeqs (a ++ b) = lineSeqs a ++ lineSeqs b := by
  simp [lineSeqs]

theorem lineSeqs_json_singleton (s : Int) :
    lineSeqs [Line.json s] = [s] := rfl

/-- A formatted event carries exactly the seq the writer passed in. -/
theorem formatEvent_seq {seq : Int} {req : AppendRequest} {ev : Event}
    (h : formatEvent seq req = .ok ev) : eventSeq ev = seq := by
  cases req <;>
    simp only [formatEvent, FormatRunStarted, FormatRunFinished, FormatRunFailed,
      FormatStepStarted, FormatStepFinished, FormatStepFailed, FormatLLMRequested,
      FormatLLMResponded, FormatToolCalled, FormatToolReturned, FormatToolFailed,
      FormatArtifactCreated] at h <;>
    split_ifs at h <;> simp_all [Except.map] <;> (subst h; rfl)

/-- A successfully encoded line exposes the seq of its event. -/
theorem encodeEvent_seq {ev : Event} {line : Line}
    (h : encodeEvent ev = .ok line) : line = Line.json (eventSeq ev) := by
  cases ev <;>
    simp only [encodeEvent, eventSeq] at h ⊢ <;>
    first
    | (cases h; rfl)
    | (rcases hm : marshalPhase _ with m | s <;> rw [hm] at h <;>
        simp_all [Except.map])

/-- `processRequest` leaves the log in one of three states: untouched
(dead assert branch), seq consumed with nothing written (format or encode
failure), or seq consumed and one line `json nextSeq` appended. -/
theorem processRequest_fst_cases (l : EventLog) (req : AppendRequest) :
    (processRequest l req).1 = l ∨
    (processRequest l req).1 = { l with nextSeq := l.nextSeq + 1 } ∨
    (processRequest l req).1 =
      { l with nextSeq := l.nextSeq + 1,
               lines := l.lines ++ [Line.json l.nextSeq] } := by
  by_cases h0 : l.nextSeq ≤ 0
  · left; simp [processRequest, h0]
  · rcases hf : formatEvent l.nextSeq req with m | ev
    · right; left; simp [processRequest, h0, hf]
    · rcases he : encodeEvent ev with m | line
      · right; left; simp [processRequest, h0, hf, he]
      · right; right
        have hline : line = Line.json l.nextSeq := by
          rw [encodeEvent_seq he, formatEvent_seq hf]
        simp [processRequest, h0, hf, he, hline]

/-- When `processRequest` reports `.ok`, exactly one line with the
consumed seq was appended. -/
theorem processRequest_ok_shape {l : EventLog} {req : AppendRequest}
    {l' : EventLog} (h : processRequest l req = (l', Outcome.ok)) :
    l'.lines = l.lines ++ [Line.json l.nextSeq] ∧
    l'.nextSeq = l.nextSeq + 1 ∧ l'.closed = l.closed := by
  by_cases h0 : l.nextSeq ≤ 0
  · simp [processRequest, h0] at h
  · rcases hf : formatEvent l.nextSeq req with m | ev
    · simp [processRequest, h0, hf] at h
    · rcases he : encodeEvent ev with m | line
      · simp [processRequest, h0, hf, he] at h
      · have hline : line = Line.json l.nextSeq := by
          rw [encodeEvent_seq he, formatEvent_seq hf]
        simp [processRequest, h0, hf, he, hline] at h
        subst h
        simp

/-- One writer step preserves the log invariant. -/
theorem processRequest_wf {l : EventLog} (req : AppendRequest)
    (h : logWF l) : logWF (processRequest l req).1 := by
  obtain ⟨hp, hb, hn⟩ := h
  rcases processRequest_fst_cases l req with hc | hc | hc <;> rw [hc] <;>
    dsimp only [logWF]
  · exact ⟨hp, hb, hn⟩
  · exact ⟨hp, fun s hs => ⟨(hb s hs).1, by have := (hb s hs).2; omega⟩, by omega⟩
  · refine ⟨?_, ?_, by omega⟩
    · rw [lineSeqs_append, lineSeqs_json_singleton, List.pairwise_append]
      exact ⟨hp, List.pairwise_singleton _ _,
        fun a ha b hbm => by
          simp only [List.mem_singleton] at hbm
          subst hbm
          exact (hb a ha).2⟩
    · intro s hs
      rw [lineSeqs_append, lineSeqs_json_singleton, List.mem_append,
        List.mem_singleton] at hs
      rcases hs with hs | hs
      · exact ⟨(hb s hs).1, by have := (hb s hs).2; omega⟩
      · subst hs
        exact ⟨hn, by omega⟩

/-- One public append call preserves the log invariant. -/
theorem appendReq_wf {l : EventLog} (r : AppendRequest)
    (h : logWF l) : logWF (appendReq l r).1 := by
  cases r <;>
    simp only [appendReq, AppendRunStarted, AppendRunFinished, AppendRunFailed,
      AppendStepStarted, AppendStepFinished, AppendStepFailed,
      AppendLLMRequested, AppendLLMResponded, AppendToolCalled,
      AppendToolReturned, AppendToolFailed, AppendArtifactCreated] <;>
    split_ifs <;>
    first
    | exact h
    | exact processRequest_wf _ h

/-- Any sequence of append calls preserves the log invariant. -/
theorem runAppends_wf : ∀ (rs : List AppendRequest) (l : EventLog),
    logWF l → logWF (runAppends l rs)
  | [], l, h => h
  | r :: rs, l, h => by
    have h1 := appendReq_wf r h
    rcases ha : appendReq l r with ⟨l1, out⟩
    rw [ha] at h1
    cases out with
    | ok =>
      have := runAppends_wf rs l1 h1
      simp only [runAppends, runAppendsOut, ha]
      exact this
    | error m =>
      have := runAppends_wf rs l1 h1
      simp only [runAppends, runAppendsOut, ha]
      exact this
    | panicked m =>
      simp only [runAppends, runAppendsOut, ha]
      exact h1

/-- C2 (counterexample): three appends on a fresh log, the second of which
fails at JSON encode (its `step.started` event carries the unmarshalable
phase 5), leave a file whose seq values are 1 and 3 — the failed append
consumed seq 2, so the written seqs are not the dense `1, 2, …` the claim
demands. -/
theorem append_seq_gap_counterexample :
    (runAppendsOut ⟨1, [], false⟩
      [.runStarted "run-1" "/ws", .stepStarted "run-1" "s1" 5,
       .stepStarted "run-1" "s1" 2]).2 =
      [.ok, .error "failed to encode event: cannot marshal invalid phase",
       .ok] ∧
    (runAppends ⟨1, [], false⟩
      [.runStarted "run-1" "/ws", .stepStarted "run-1" "s1" 5,
       .stepStarted "run-1" "s1" 2]).lines = [.json 1, .json 3] :=
  ⟨rfl, rfl⟩

/-- C2 (amended): for every sequence of append calls on one freshly opened
EventLog — including calls whose JSON encode fails — the seq values of the
lines written to the file are positive and strictly increasing; they need
not be dense, because an append whose encode fails still consumes its
sequence number. -/
theorem append_seqs_strictly_increasing (reqs : List AppendRequest) :
    List.Pairwise (· < ·)
      (lineSeqs (runAppends ⟨1, [], false⟩ reqs).lines) ∧
    ∀ s ∈ lineSeqs (runAppends ⟨1, [], false⟩ reqs).lines, 0 < s := by
  have h := runAppends_wf reqs ⟨1, [], false⟩
    ⟨by simp [lineSeqs], by simp [lineSeqs], by norm_num⟩
  exact ⟨h.1, fun s hs => (h.2.1 s hs).1⟩

/-- Witness for `append_seqs_strictly_increasing` at the gapped run of the
counterexample: the written seqs 1 and 3 are indeed strictly increasing
and positive. -/
theorem append_seqs_strictly_increasing_witness :
    0 < 1 ∧ List.Pairwise (· < ·)
      (lineSeqs (runAppends ⟨1, [], false⟩
        [.runStarted "run-1" "/ws", .stepStarted "run-1" "s1" 5,
         .stepStarted "run-1" "s1" 2]).lines) :=
  ⟨by norm_num,
   (append_seqs_strictly_increasing
     [.runStarted "run-1" "/ws", .stepStarted "run-1" "s1" 5,
      .stepStarted "run-1" "s1" 2]).1⟩

/-- A public append call that reports `.ok` appended exactly one line
carrying the consumed seq and left the closed flag alone. -/
theorem appendReq_ok_shape {l : EventLog} {r : AppendRequest} {l' : EventLog}
    (h : appendReq l r = (l', Outcome.ok)) :
    l'.lines = l.lines ++ [Line.json l.nextSeq] ∧
    l'.nextSeq = l.nextSeq + 1 ∧ l'.closed = l.closed := by
  cases r <;>
    simp only [appendReq, AppendRunStarted, AppendRunFinished, AppendRunFailed,
      AppendStepStarted, AppendStepFinished, AppendStepFailed,
      AppendLLMRequested, AppendLLMResponded, AppendToolCalled,
      AppendToolReturned, AppendToolFailed, AppendArtifactCreated] at h <;>
    split_ifs at h <;>
    first
    | simp at h
    | exact processRequest_ok_shape h

/-- When every outcome of a run of appends is `.ok`, the file gains the
dense block `json nextSeq, json (nextSeq+1), …` and the counter advances
by the number of requests. -/
theorem runAppends_all_ok : ∀ (rs : List AppendRequest) (l : EventLog),
    l.closed = false →
    (∀ o ∈ (runAppendsOut l rs).2, o = Outcome.ok) →
    (runAppendsOut l rs).1.lines = l.lines ++ seqList l.nextSeq rs.length ∧
    (runAppendsOut l rs).1.nextSeq = l.nextSeq + rs.length ∧
    (runAppendsOut l rs).1.closed = false
  | [], l, hc, _ => by simp [runAppendsOut, seqList, hc]
  | r :: rs, l, hc, hok => by
    rcases ha : appendReq l r with ⟨l1, out⟩
    cases out with
    | panicked m =>
      exfalso
      have : Outcome.panicked m ∈ (runAppendsOut l (r :: rs)).2 := by
        simp [runAppendsOut, ha]
      exact absurd (hok _ this) (by simp)
    | error m =>
      exfalso
      have : Outcome.error m ∈ (runAppendsOut l (r :: rs)).2 := by
        simp [runAppendsOut, ha]
      exact absurd (hok _ this) (by simp)
    | ok =>
      obtain ⟨e1, e2, e3⟩ := appendReq_ok_shape ha
      have hok1 : ∀ o ∈ (runAppendsOut l1 rs).2, o = Outcome.ok := by
        intro o ho
        exact hok o (by simp [runAppendsOut, ha, ho])
      have ih := runAppends_all_ok rs l1 (e3.trans hc) hok1
      have hfst : (runAppendsOut l (r :: rs)).1 = (runAppendsOut l1 rs).1 := by
        simp [runAppendsOut, ha]
      rw [hfst]
      refine ⟨?_, ?_, ih.2.2⟩
      · rw [ih.1, e1, e2, List.append_assoc]
        simp [seqList]
      · rw [ih.2.1, e2]
        simp only [List.length_cons]
        push_cast
        ring

/-- Scanning the dense block written by `n + 1` successful appends starting
at seq `s` succeeds and returns the last seq `s + n`. -/
theorem scanGo_seqList : ∀ (n : Nat) (s last : Int) (k : Nat),
    last < s → 0 ≤ last →
    scanGo (seqList s (n + 1)) last k = .ok (s + n)
  | 0, s, last, k, h1, h2 => by
    rw [seqList, seqList, scanGo,
      if_neg (not_le.mpr h1), if_neg (not_le.mpr (by omega))]
    simp [scanGo]
  | n + 1, s, last, k, h1, h2 => by
    have ih := scanGo_seqList n (s + 1) s (k + 1) (by omega) (by omega)
    rw [seqList, scanGo,
      if_neg (not_le.mpr h1), if_neg (not_le.mpr (by omega)), ih]
    congr 1
    push_cast
    ring

/-- C7: opening a fresh log, appending `N` events all of which succeed,
closing, and reopening the same file yields `next_seq = N + 1`, so the
next append writes a line with seq `N + 1`. -/
theorem log_reopen_resumes (reqs : List AppendRequest)
    (hok : ∀ o ∈ (runAppendsOut ⟨1, [], false⟩ reqs).2, o = Outcome.ok) :
    OpenEventLog none = .ok ⟨1, [], false⟩ ∧
    (Close (runAppendsOut ⟨1, [], false⟩ reqs).1).2 = .ok ∧
    OpenEventLog (some (runAppendsOut ⟨1, [], false⟩ reqs).1.lines) =
      .ok ⟨(reqs.length : Int) + 1,
           (runAppendsOut ⟨1, [], false⟩ reqs).1.lines, false⟩ ∧
    ∀ rid ws : String, rid ≠ "" → ws ≠ "" →
      (AppendRunStarted
        ⟨(reqs.length : Int) + 1,
         (runAppendsOut ⟨1, [], false⟩ reqs).1.lines, false⟩ rid ws).1.lines =
        (runAppendsOut ⟨1, [], false⟩ reqs).1.lines ++
          [Line.json ((reqs.length : Int) + 1)] := by
  obtain ⟨e1, e2, e3⟩ := runAppends_all_ok reqs ⟨1, [], false⟩ rfl hok
  refine ⟨rfl, by simp [Close, e3], ?_, ?_⟩
  · rw [e1]
    simp only [List.nil_append]
    cases hn : reqs.length with
    | zero => simp [seqList, OpenEventLog]
    | succ n =>
      have hs := scanGo_seqList n 1 0 0 (by norm_num) le_rfl
      have hcons : seqList 1 (n + 1) = Line.json 1 :: seqList 2 n := by
        simp [seqList]
      rw [OpenEventLog]
      simp only [hcons, List.isEmpty_cons, Option.getD_some, if_neg]
      rw [← hcons, scanLastSeq, hs]
      have hcast : (1 : Int) + n + 1 = (n + 1 : Nat) + 1 := by push_cast; ring
      simp [hcast]
  · intro rid ws hrid hws
    have h0 : ¬((reqs.length : Int) + 1 ≤ 0) := by omega
    simp [AppendRunStarted, processRequest, formatEvent, FormatRunStarted,
      encodeEvent, Except.map, h0, hrid, hws]

/-- Witness for `log_reopen_resumes` with two concrete successful appends:
reopening after them resumes at `next_seq = 3`. -/
theorem log_reopen_resumes_witness :
    OpenEventLog (some (runAppendsOut ⟨1, [], false⟩
        [.runStarted "run-9" "/ws", .runFinished "run-9"]).1.lines) =
      .ok ⟨3, (runAppendsOut ⟨1, [], false⟩
        [.runStarted "run-9" "/ws", .runFinished "run-9"]).1.lines, false⟩ := by
  have h := log_reopen_resumes
    [.runStarted "run-9" "/ws", .runFinished "run-9"] (by decide)
  simpa using h.2.2.1

/-- A successful scan certifies the file: every line parsed and the seqs
strictly increase above the starting value. -/
theorem scanGo_ok_good : ∀ (ls : List Line) (last : Int) (k : Nat) (v : Int),
    scanGo ls last k = .ok v →
    (∀ l ∈ ls, l ≠ Line.malformed) ∧
    List.Chain' (· < ·) (last :: lineSeqs ls)
  | [], last, k, v, _ => ⟨by simp, by simp [lineSeqs]⟩
  | x :: rest, last, k, v, h => by
    cases x with
    | malformed => simp [scanGo] at h
    | json s =>
      rw [scanGo] at h
      split_ifs at h with h1 h2
      have ih := scanGo_ok_good rest s (k + 1) v h
      constructor
      · intro l hl
        rcases List.mem_cons.mp hl with hl | hl
        · subst hl; simp
        · exact ih.1 l hl
      · have hseqs : lineSeqs (Line.json s :: rest) = s :: lineSeqs rest := rfl
        rw [hseqs, List.chain'_cons']
        refine ⟨?_, ih.2⟩
        intro y hy
        rw [List.head?_cons, Option.mem_def] at hy
        cases hy
        omega

/-- A failed scan points at a genuinely offending line: the error carries
the 1-based index (offset by the starting line count `k`) of a line that is
malformed or whose seq is not above the seq before it. -/
theorem scanGo_error_offending : ∀ (ls : List Line) (last : Int) (k : Nat)
    (e : ScanError), 0 ≤ last → scanGo ls last k = .error e →
    ∃ i, i < ls.length ∧ e.lineNum = k + i + 1 ∧
      (ls.getD i Line.malformed = Line.malformed ∨
       ∃ s, ls.getD i Line.malformed = Line.json s ∧
         s ≤ (if i = 0 then last
              else match ls.getD (i - 1) Line.malformed with
                   | Line.json p => p
                   | Line.malformed => 0))
  | [], last, k, e, _, h => by simp [scanGo] at h
  | x :: rest, last, k, e, hlast, h => by
    cases x with
    | malformed =>
      rw [scanGo] at h
      cases h
      exact ⟨0, by simp, by simp, Or.inl rfl⟩
    | json s =>
      rw [scanGo] at h
      split_ifs at h with h1 h2
      · cases h
        exact ⟨0, by simp, by simp, Or.inr ⟨s, rfl, by simpa using h1⟩⟩
      · exact absurd h2 (by omega)
      · obtain ⟨j, hj, hnum, hoff⟩ :=
          scanGo_error_offending rest s (k + 1) e (by omega) h
        refine ⟨j + 1, by simpa using hj, by omega, ?_⟩
        have hget : (Line.json s :: rest).getD (j + 1) Line.malformed =
            rest.getD j Line.malformed := by simp
        rw [hget]
        rcases hoff with hoff | ⟨t, ht, hle⟩
        · exact Or.inl hoff
        · refine Or.inr ⟨t, ht, ?_⟩
          cases j with
          | zero => simpa using hle
          | succ j' =>
            have : (Line.json s :: rest).getD (j' + 1) Line.malformed =
                rest.getD j' Line.malformed := by simp
            simpa [this] using hle

/-- Scanning any all-JSON, strictly increasing file succeeds with the last
seq (density is not required). -/
theorem scanGo_ok_of_inc : ∀ (ls : List Line) (last : Int) (k : Nat),
    (∀ l ∈ ls, l ≠ Line.malformed) →
    List.Chain' (· < ·) (last :: lineSeqs ls) → 0 ≤ last →
    scanGo ls last k = .ok ((lineSeqs ls).getLastD last)
  | [], last, k, _, _, _ => by simp [scanGo, lineSeqs]
  | x :: rest, last, k, hjson, hinc, hlast => by
    cases x with
    | malformed => exact absurd rfl (hjson _ (by simp))
    | json s =>
      have hseqs : lineSeqs (Line.json s :: rest) = s :: lineSeqs rest := rfl
      rw [hseqs] at hinc
      rw [List.chain'_cons] at hinc
      have ih := scanGo_ok_of_inc rest s (k + 1)
        (fun l hl => hjson l (by simp [hl])) hinc.2 (by omega)
      rw [scanGo, if_neg (not_le.mpr hinc.1), if_neg (by omega), ih, hseqs,
        List.getLastD_cons]

/-- C6: when `OpenEventLog` opens an existing non-empty file containing a
malformed line or a seq that fails to increase, the open fails with an
error whose line number points inside the file at a line that is malformed
or whose seq is not above the previous seq.  The model of `OpenEventLog`
is a pure function of the file contents, so the file is never modified,
let alone truncated. -/
theorem open_rejects_bad_lines (lines : List Line) (hne : lines ≠ [])
    (hbad : ¬ allJsonStrictInc lines) :
    ∃ e, OpenEventLog (some lines) = .error e ∧
      1 ≤ e.lineNum ∧ e.lineNum ≤ lines.length ∧
      offendingAt lines e.lineNum := by
  rcases hscan : scanLastSeq lines with e | v
  · obtain ⟨i, hi, hnum, hoff⟩ :=
      scanGo_error_offending lines 0 0 e le_rfl hscan
    refine ⟨e, ?_, by omega, by omega, ?_⟩
    · cases lines with
      | nil => exact absurd rfl hne
      | cons a as => simp [OpenEventLog, hscan]
    · rw [offendingAt, hnum]
      simp only [Nat.zero_add, Nat.add_sub_cancel]
      rcases hoff with hoff | ⟨s, hs, hle⟩
      · exact Or.inl hoff
      · refine Or.inr ⟨s, hs, ?_⟩
        rw [prevSeqAt]
        cases i with
        | zero => simpa using hle
        | succ i' =>
          rw [if_neg (by omega)]
          simpa [Nat.succ_sub_one] using hle
  · exact absurd (And.intro (scanGo_ok_good lines 0 0 v hscan).1
      (scanGo_ok_good lines 0 0 v hscan).2) hbad

/-- Witness for `open_rejects_bad_lines`: a two-line file whose second seq
is below the first is rejected with an error naming line 2. -/
theorem open_rejects_bad_lines_witness :
    ∃ e, OpenEventLog (some [Line.json 5, Line.json 3]) = .error e ∧
      1 ≤ e.lineNum ∧ e.lineNum ≤ 2 ∧
      offendingAt [Line.json 5, Line.json 3] e.lineNum :=
  open_rejects_bad_lines [Line.json 5, Line.json 3] (by simp)
    (fun h => by
      have h2 := h.2
      simp [lineSeqs, List.chain'_cons] at h2)

/-- C10: `OpenEventLog` accepts an existing log whose seq values are
strictly increasing but not necessarily dense: the scan succeeds and
`next_seq` is set to the last seq plus one. -/
theorem open_accepts_sparse_seqs (ls : List Line) (hne : ls ≠ [])
    (hjson : ∀ l ∈ ls, l ≠ Line.malformed)
    (hinc : List.Chain' (· < ·) (0 :: lineSeqs ls)) :
    OpenEventLog (some ls) = .ok ⟨(lineSeqs ls).getLastD 0 + 1, ls, false⟩ := by
  have h := scanGo_ok_of_inc ls 0 0 hjson hinc le_rfl
  cases ls with
  | nil => exact absurd rfl hne
  | cons a as => simp [OpenEventLog, scanLastSeq, h]

/-- Witness for `open_accepts_sparse_seqs`: the gapped log `1, 3, 7` opens
successfully and resumes at `next_seq = 8`. -/
theorem open_accepts_sparse_seqs_witness :
    OpenEventLog (some [Line.json 1, Line.json 3, Line.json 7]) =
      .ok ⟨8, [Line.json 1, Line.json 3, Line.json 7], false⟩ := by
  have h := open_accepts_sparse_seqs [Line.json 1, Line.json 3, Line.json 7]
    (by simp) (by simp)
    (by simp [lineSeqs, List.chain'_cons])
  simpa [lineSeqs] using h

end AIPlatform
